import Mathlib

/-!
Shallow embedding of the FCC-Wifi-Sensor core (src/src/main.cpp): the
probe-request frame classifier, the bounded MAC deduplication buffer, and the
channel-hop scheduler, together with proofs of the specified properties.
-/

namespace WifiSensor

/-! ### Compile-time configuration (main.cpp lines 20-33) -/

def IGNORE_LOCAL_MACS : Bool := true
def STATIC_MODE : Bool := false
def INITIAL_WIFI_CHANNEL : Nat := 1
def BUFFER_SIZE : Nat := 100
def SPI_SEND_ADDRESSES : Bool := false
def SPI_SEND_CLIENT_COUNT : Bool := false
def TYPE_MANAGEMENT : Nat := 0
def SUBTYPE_PROBE_REQUEST : Nat := 4

/-- Configuration surface of the program: the values of the `#define`s that
the core logic reads. -/
structure Config where
  ignoreLocalMacs : Bool
  spiSendAddresses : Bool
  spiSendClientCount : Bool
  bufferSize : Nat

/-- The configuration as compiled in the repository. -/
def defaultConfig : Config :=
  { ignoreLocalMacs := IGNORE_LOCAL_MACS
    spiSendAddresses := SPI_SEND_ADDRESSES
    spiSendClientCount := SPI_SEND_CLIENT_COUNT
    bufferSize := BUFFER_SIZE }

/-! ### Captured frames

A `SnifferPacket` carries the radio metadata (`rx_ctrl.rssi`, `rx_ctrl.channel`)
and the payload bytes `data[DATA_LENGTH]`.  Payload bytes are `uint8_t`; we
model the array as a total function from index to byte value. -/

structure Frame where
  data : Nat → Nat
  rssi : Int
  channel : Nat

/-! ### MAC rendering (getMAC, main.cpp lines 74-76)

`sprintf(addr, "%02x:...", data[offset+0], ..., data[offset+5])`: each byte is
rendered as exactly two lowercase hexadecimal digits (`%02x`), the six groups
joined by colons.  `b / 16 % 16` and `b % 16` are the two nibbles of the
`uint8_t` value. -/

def hexDigit (n : Nat) : Char :=
  if n < 10 then Char.ofNat (48 + n) else Char.ofNat (87 + n)

def byteToHex (b : Nat) : String :=
  String.mk [hexDigit (b / 16 % 16), hexDigit (b % 16)]

def getMAC (data : Nat → Nat) (offset : Nat) : String :=
  byteToHex (data (offset + 0)) ++ ":" ++ byteToHex (data (offset + 1)) ++ ":" ++
  byteToHex (data (offset + 2)) ++ ":" ++ byteToHex (data (offset + 3)) ++ ":" ++
  byteToHex (data (offset + 4)) ++ ":" ++ byteToHex (data (offset + 5))

/-- isLocalMAC (main.cpp lines 78-82): `(data[10] & 0b00000010) >> 1` is
nonzero iff the second-least-significant bit of the first address byte is
set. -/
def isLocalMAC (data : Nat → Nat) : Bool :=
  ((data 10 &&& 2) >>> 1) != 0

/-! ### The MAC buffer (main.cpp lines 71-122)

`char macs[BUFFER_SIZE][18]` and `int clientCount`.  We model the backing
array as a total function from slot index to stored string (globals are
zero-initialised, so every slot starts as the empty string). -/

structure BufState where
  macs : Nat → String
  clientCount : Nat

def initBuf : BufState := { macs := fun _ => "", clientCount := 0 }

/-- The currently occupied entries, oldest first: slots `0 .. clientCount-1`. -/
def occupied (st : BufState) : List String :=
  (List.range st.clientCount).map st.macs

/-- bufferCheckMAC (main.cpp lines 92-99): `for (int i=0;i<=clientCount;i++)`
compares `newmac` against slots `0 .. clientCount` INCLUSIVE — one more slot
than is occupied. -/
def bufferCheckMAC (st : BufState) (newmac : String) : Bool :=
  (List.range (st.clientCount + 1)).any fun i => st.macs i == newmac

/-- bufferRollBack (main.cpp lines 101-109): when `clientCount >= BUFFER_SIZE`,
shift slots `1 .. clientCount-1` down by one (`macs[i-1] = macs[i]`) and
decrement `clientCount`. -/
def bufferRollBack (cap : Nat) (st : BufState) : BufState :=
  if cap ≤ st.clientCount then
    { macs := fun i => if i < st.clientCount - 1 then st.macs (i + 1) else st.macs i
      clientCount := st.clientCount - 1 }
  else st

/-- bufferAdd (main.cpp lines 111-114): roll back if at capacity, then
`strcpy(macs[clientCount++], newmac)`. -/
def bufferAdd (cap : Nat) (st : BufState) (newmac : String) : BufState :=
  let st1 := bufferRollBack cap st
  { macs := fun i => if i = st1.clientCount then newmac else st1.macs i
    clientCount := st1.clientCount + 1 }

/-- bufferReset (main.cpp lines 116-122): clear slots `0 .. clientCount-1`
and zero the count. -/
def bufferReset (st : BufState) : BufState :=
  { macs := fun i => if i < st.clientCount then "" else st.macs i
    clientCount := 0 }

/-! ### Frame classification (showMetadata front half, main.cpp lines 124-143) -/

/-- `frameControl = ((unsigned int)data[1] << 8) + data[0]` — little-endian. -/
def frameControl (f : Frame) : Nat := f.data 1 * 256 + f.data 0

def frameType (f : Frame) : Nat := (frameControl f &&& 12) >>> 2

def frameSubType (f : Frame) : Nat := (frameControl f &&& 240) >>> 4

structure Sighting where
  identity : String
  rssi : Int
  channel : Nat
deriving DecidableEq

/-- The pure classification part of `showMetadata`: the type/subtype hard
filter (lines 135-137), the optional locally-administered filter (line 139),
and extraction of the canonical identity from payload offset 10 together with
the frame's rssi and channel (lines 141-143). -/
def classify (ignoreLocal : Bool) (f : Frame) : Option Sighting :=
  if frameType f != TYPE_MANAGEMENT || frameSubType f != SUBTYPE_PROBE_REQUEST then
    none
  else if isLocalMAC f.data && ignoreLocal then
    none
  else
    some { identity := getMAC f.data 10, rssi := f.rssi, channel := f.channel }

/-! ### Events delivered to the Reporting Sink -/

inductive Event where
  | sighting (identity : String) (rssi : Int) (channel : Nat) (count : Nat)
  | spiAddress (identity : String)
  | sweepSummary (count : Nat)
  | spiCount (count : Nat)
deriving DecidableEq

def isSightingEvent : Event → Bool
  | .sighting _ _ _ _ => true
  | _ => false

def isSweepSummaryEvent : Event → Bool
  | .sweepSummary _ => true
  | _ => false

/-- The check-then-act tail of `showMetadata` (main.cpp lines 145-152): if the
identity is not found by `bufferCheckMAC`, `bufferAdd` it and emit the sighting
line (whose `cnt` field is `clientCount` AFTER the add), plus the optional SPI
address message. -/
def processSighting (cfg : Config) (st : BufState) (s : Sighting) :
    BufState × List Event :=
  if bufferCheckMAC st s.identity then (st, [])
  else
    let st1 := bufferAdd cfg.bufferSize st s.identity
    (st1, [Event.sighting s.identity s.rssi s.channel st1.clientCount] ++
          (if cfg.spiSendAddresses then [Event.spiAddress s.identity] else []))

/-- showMetadata (main.cpp lines 124-153): classify, then check-then-act. -/
def showMetadata (cfg : Config) (st : BufState) (f : Frame) :
    BufState × List Event :=
  match classify cfg.ignoreLocalMacs f with
  | none => (st, [])
  | some s => processSighting cfg st s

/-! ### Channel scheduler (channelHop, main.cpp lines 168-190) -/

structure SysState where
  buf : BufState
  channel : Nat

/-- channelHop: advance the channel; if it exceeds 14, wrap to 1 and print the
`Total clients:` sweep summary.  The SPI client-count message AND the
`bufferReset()` call are both inside `if(SPI_SEND_CLIENT_COUNT)`
(lines 177-182). -/
def channelHop (cfg : Config) (st : SysState) : SysState × List Event :=
  let newChannel := st.channel + 1
  if 14 < newChannel then
    ({ buf := if cfg.spiSendClientCount then bufferReset st.buf else st.buf
       channel := 1 },
     [Event.sweepSummary st.buf.clientCount] ++
       (if cfg.spiSendClientCount then [Event.spiCount st.buf.clientCount] else []))
  else
    ({ buf := st.buf, channel := newChannel }, [])

/-! ### The control loop: frame callbacks and timer ticks, serialized onto a
single execution context (spec section 5). -/

inductive Input where
  | frame (f : Frame)
  | tick

def isFrameInput : Input → Bool
  | .frame _ => true
  | .tick => false

def sysStep (cfg : Config) (st : SysState) : Input → SysState × List Event
  | .frame f =>
      let r := showMetadata cfg st.buf f
      ({ buf := r.1, channel := st.channel }, r.2)
  | .tick => channelHop cfg st

def sysRun (cfg : Config) (st : SysState) : List Input → SysState × List Event
  | [] => (st, [])
  | i :: is =>
      let r1 := sysStep cfg st i
      let r2 := sysRun cfg r1.1 is
      (r2.1, r1.2 ++ r2.2)

/-- setup (main.cpp lines 195-213): the radio starts on
`INITIAL_WIFI_CHANNEL`, the buffer is empty, and the channel-hop timer is
armed iff `STATIC_MODE` is false (lines 207-212).  The returned Bool is
whether the timer was armed. -/
def setup (staticMode : Bool) (initialChannel : Nat) : SysState × Bool :=
  ({ buf := initBuf, channel := initialChannel }, !staticMode)

/-- Run of the control loop on classified sightings only (one sweep window:
no timer tick delivered). -/
def runSightings (cfg : Config) (st : BufState) :
    List Sighting → BufState × List Event
  | [] => (st, [])
  | s :: rest =>
      let r1 := processSighting cfg st s
      let r2 := runSightings cfg r1.1 rest
      (r2.1, r1.2 ++ r2.2)

/-! ### Basic buffer lemmas -/

theorem length_occupied (st : BufState) : (occupied st).length = st.clientCount := by
  simp [occupied]

theorem mem_occupied {st : BufState} {m : String} :
    m ∈ occupied st ↔ ∃ i, i < st.clientCount ∧ st.macs i = m := by
  simp [occupied]

theorem bufferCheckMAC_iff {st : BufState} {m : String} :
    bufferCheckMAC st m = true ↔ ∃ i, i ≤ st.clientCount ∧ st.macs i = m := by
  simp [bufferCheckMAC, Nat.lt_succ_iff]

theorem checkMAC_of_mem {st : BufState} {m : String} (h : m ∈ occupied st) :
    bufferCheckMAC st m = true := by
  rcases mem_occupied.mp h with ⟨i, hi, hm⟩
  exact bufferCheckMAC_iff.mpr ⟨i, Nat.le_of_lt hi, hm⟩

theorem not_mem_of_checkMAC_false {st : BufState} {m : String}
    (h : bufferCheckMAC st m = false) : m ∉ occupied st := by
  intro hmem
  rw [checkMAC_of_mem hmem] at h
  cases h

theorem bufferRollBack_of_lt {cap : Nat} {st : BufState} (h : st.clientCount < cap) :
    bufferRollBack cap st = st := by
  simp [bufferRollBack, Nat.not_le.mpr h]

theorem clientCount_bufferAdd_of_lt {cap : Nat} {st : BufState} {m : String}
    (h : st.clientCount < cap) :
    (bufferAdd cap st m).clientCount = st.clientCount + 1 := by
  simp [bufferAdd, bufferRollBack_of_lt h]

theorem occupied_bufferAdd_of_lt {cap : Nat} {st : BufState} {m : String}
    (h : st.clientCount < cap) :
    occupied (bufferAdd cap st m) = occupied st ++ [m] := by
  simp only [bufferAdd, bufferRollBack_of_lt h, occupied]
  rw [List.range_succ, List.map_append]
  congr 1
  · apply List.map_congr_left
    intro a ha
    have ha' : a < st.clientCount := List.mem_range.mp ha
    simp [Nat.ne_of_lt ha']
  · simp

theorem clientCount_bufferAdd_of_ge {cap : Nat} {st : BufState} {m : String}
    (hc : cap ≤ st.clientCount) (h1 : 1 ≤ st.clientCount) :
    (bufferAdd cap st m).clientCount = st.clientCount := by
  simp [bufferAdd, bufferRollBack, hc]
  omega

theorem tail_map_range (n : Nat) (f : Nat → String) :
    (((List.range (n + 1)).map f).tail) = (List.range n).map fun i => f (i + 1) := by
  rw [List.range_succ_eq_map]
  simp [List.map_map, Function.comp]

theorem bufferRollBack_of_ge {cap : Nat} {st : BufState} (hc : cap ≤ st.clientCount) :
    bufferRollBack cap st =
      { macs := fun i => if i < st.clientCount - 1 then st.macs (i + 1) else st.macs i
        clientCount := st.clientCount - 1 } := by
  rw [bufferRollBack, if_pos hc]

theorem occupied_bufferAdd_of_ge {cap : Nat} {st : BufState} {m : String}
    (hc : cap ≤ st.clientCount) (h1 : 1 ≤ st.clientCount) :
    occupied (bufferAdd cap st m) = (occupied st).tail ++ [m] := by
  obtain ⟨k, hk⟩ : ∃ k, st.clientCount = k + 1 :=
    ⟨st.clientCount - 1, (Nat.succ_pred_eq_of_pos h1).symm⟩
  simp only [bufferAdd, bufferRollBack_of_ge hc, occupied]
  simp only [hk, Nat.add_sub_cancel]
  rw [tail_map_range k st.macs, List.range_succ, List.map_append]
  congr 1
  · apply List.map_congr_left
    intro a ha
    have ha' : a < k := List.mem_range.mp ha
    simp [Nat.ne_of_lt ha', ha']
  · simp

theorem clientCount_le_bufferAdd (cap : Nat) (st : BufState) (m : String) :
    st.clientCount ≤ (bufferAdd cap st m).clientCount := by
  simp only [bufferAdd, bufferRollBack]
  split
  · simp only []
    omega
  · simp

theorem occupied_bufferReset (st : BufState) : occupied (bufferReset st) = [] := rfl

/-! ### Buffer invariant: no duplicates, size bounded by capacity -/

def BufInv (cap : Nat) (st : BufState) : Prop :=
  (occupied st).Nodup ∧ st.clientCount ≤ cap

theorem bufInv_initBuf (cap : Nat) : BufInv cap initBuf :=
  ⟨List.nodup_nil, Nat.zero_le _⟩

theorem bufInv_bufferAdd {cap : Nat} {st : BufState} {m : String}
    (h1 : 1 ≤ cap) (hinv : BufInv cap st)
    (hnew : bufferCheckMAC st m = false) : BufInv cap (bufferAdd cap st m) := by
  obtain ⟨hnd, hle⟩ := hinv
  have hnotmem : m ∉ occupied st := not_mem_of_checkMAC_false hnew
  rcases Nat.lt_or_ge st.clientCount cap with hlt | hge
  · refine ⟨?_, ?_⟩
    · rw [occupied_bufferAdd_of_lt hlt]
      simp [List.nodup_append, hnd, hnotmem]
    · rw [clientCount_bufferAdd_of_lt hlt]
      omega
  · have h1' : 1 ≤ st.clientCount := le_trans h1 hge
    refine ⟨?_, ?_⟩
    · rw [occupied_bufferAdd_of_ge hge h1']
      have htsub : (occupied st).tail.Sublist (occupied st) := List.tail_sublist _
      have hndt : (occupied st).tail.Nodup := hnd.sublist htsub
      have hnm : m ∉ (occupied st).tail := fun hm => hnotmem (htsub.mem hm)
      simp [List.nodup_append, hndt, hnm]
    · rw [clientCount_bufferAdd_of_ge hge h1']
      exact hle

theorem bufInv_processSighting {cfg : Config} {st : BufState} {s : Sighting}
    (h1 : 1 ≤ cfg.bufferSize) (hinv : BufInv cfg.bufferSize st) :
    BufInv cfg.bufferSize (processSighting cfg st s).1 := by
  unfold processSighting
  by_cases hchk : bufferCheckMAC st s.identity
  · simpa [hchk] using hinv
  · simp only [hchk, Bool.false_eq_true, if_neg, ite_false]
    exact bufInv_bufferAdd h1 hinv (by simpa using hchk)

theorem bufInv_showMetadata {cfg : Config} {st : BufState} {f : Frame}
    (h1 : 1 ≤ cfg.bufferSize) (hinv : BufInv cfg.bufferSize st) :
    BufInv cfg.bufferSize (showMetadata cfg st f).1 := by
  unfold showMetadata
  cases classify cfg.ignoreLocalMacs f with
  | none => exact hinv
  | some s => exact bufInv_processSighting h1 hinv

theorem bufInv_bufferReset (cap : Nat) (st : BufState) : BufInv cap (bufferReset st) := by
  constructor
  · rw [occupied_bufferReset]
    exact List.nodup_nil
  · exact Nat.zero_le _

theorem bufInv_channelHop {cfg : Config} {st : SysState}
    (hinv : BufInv cfg.bufferSize st.buf) :
    BufInv cfg.bufferSize (channelHop cfg st).1.buf := by
  simp only [channelHop]
  split_ifs with hw hs
  · exact bufInv_bufferReset _ _
  · exact hinv
  · exact hinv

theorem bufInv_sysRun {cfg : Config} (h1 : 1 ≤ cfg.bufferSize) :
    ∀ (inputs : List Input) (st : SysState), BufInv cfg.bufferSize st.buf →
      BufInv cfg.bufferSize (sysRun cfg st inputs).1.buf := by
  intro inputs
  induction inputs with
  | nil => intro st h; exact h
  | cons i is ih =>
      intro st h
      simp only [sysRun]
      apply ih
      cases i with
      | frame f => exact bufInv_showMetadata h1 h
      | tick => exact bufInv_channelHop h

/-! ### Clean slots above the occupied region

From a zero-initialised start (or right after a reset), every slot at index
`clientCount` and above holds the empty string, so the off-by-one scan of
`bufferCheckMAC` cannot produce a spurious match for a real (nonempty)
identity. -/

def CleanAbove (st : BufState) : Prop :=
  ∀ i, st.clientCount ≤ i → st.macs i = ""

theorem cleanAbove_initBuf : CleanAbove initBuf := fun _ _ => rfl

theorem cleanAbove_bufferAdd {cap : Nat} {st : BufState} {m : String}
    (h : st.clientCount < cap) (hclean : CleanAbove st) :
    CleanAbove (bufferAdd cap st m) := by
  intro i hi
  rw [clientCount_bufferAdd_of_lt h] at hi
  simp only [bufferAdd, bufferRollBack_of_lt h]
  have h1 : i ≠ st.clientCount := by omega
  simp only [h1, if_neg, ite_false]
  exact hclean i (by omega)

theorem checkMAC_iff_mem_of_clean {st : BufState} {m : String}
    (hclean : CleanAbove st) (hm : m ≠ "") :
    bufferCheckMAC st m = true ↔ m ∈ occupied st := by
  rw [bufferCheckMAC_iff, mem_occupied]
  constructor
  · rintro ⟨i, hi, he⟩
    rcases Nat.lt_or_ge i st.clientCount with hlt | hge
    · exact ⟨i, hlt, he⟩
    · exact absurd (he ▸ hclean i hge) hm
  · rintro ⟨i, hi, he⟩
    exact ⟨i, Nat.le_of_lt hi, he⟩

/-! ### Counting emitted sighting events -/

theorem processSighting_of_checkMAC {cfg : Config} {st : BufState} {s : Sighting}
    (h : bufferCheckMAC st s.identity = true) :
    processSighting cfg st s = (st, []) := by
  simp [processSighting, h]

theorem processSighting_filter_length {cfg : Config} {st : BufState} {s : Sighting}
    (h : bufferCheckMAC st s.identity = false) :
    ((processSighting cfg st s).2.filter isSightingEvent).length = 1 := by
  by_cases hs : cfg.spiSendAddresses <;>
    simp [processSighting, h, hs, isSightingEvent]

theorem processSighting_fst {cfg : Config} {st : BufState} {s : Sighting}
    (h : bufferCheckMAC st s.identity = false) :
    (processSighting cfg st s).1 = bufferAdd cfg.bufferSize st s.identity := by
  simp [processSighting, h]

theorem runSightings_count (cfg : Config) :
    ∀ (l : List Sighting) (st : BufState),
      CleanAbove st → (occupied st).Nodup → "" ∉ occupied st →
      (∀ s ∈ l, s.identity ≠ "") →
      (occupied st ++ l.map Sighting.identity).toFinset.card ≤ cfg.bufferSize →
      ((runSightings cfg st l).2.filter isSightingEvent).length + st.clientCount
        = (occupied st ++ l.map Sighting.identity).toFinset.card := by
  intro l
  induction l with
  | nil =>
      intro st hclean hnd hnotmem hne hcap
      simp only [runSightings, List.map_nil, List.append_nil, List.filter_nil,
        List.length_nil, Nat.zero_add]
      rw [List.toFinset_card_of_nodup hnd, length_occupied]
  | cons s rest ih =>
      intro st hclean hnd hnotmem hne hcap
      have hmne : s.identity ≠ "" := hne s (List.mem_cons_self _ _)
      simp only [runSightings, List.map_cons] at hcap ⊢
      by_cases hchk : bufferCheckMAC st s.identity
      · have hmem : s.identity ∈ occupied st :=
          (checkMAC_iff_mem_of_clean hclean hmne).mp hchk
        have hset : (occupied st ++ s.identity :: rest.map Sighting.identity).toFinset
            = (occupied st ++ rest.map Sighting.identity).toFinset := by
          simp only [List.toFinset_append, List.toFinset_cons, Finset.union_insert]
          exact Finset.insert_eq_self.mpr
            (Finset.mem_union_left _ (List.mem_toFinset.mpr hmem))
        rw [processSighting_of_checkMAC hchk]
        simp only [List.nil_append, hset]
        rw [hset] at hcap
        exact ih st hclean hnd hnotmem (fun t ht => hne t (List.mem_cons_of_mem _ ht)) hcap
      · have hchk' : bufferCheckMAC st s.identity = false := by simpa using hchk
        have hnotin : s.identity ∉ occupied st := not_mem_of_checkMAC_false hchk'
        have hcc : (occupied st).toFinset.card = st.clientCount := by
          rw [List.toFinset_card_of_nodup hnd, length_occupied]
        have hsub : insert s.identity (occupied st).toFinset ⊆
            (occupied st ++ s.identity :: rest.map Sighting.identity).toFinset := by
          intro x hx
          simp only [List.toFinset_append, List.toFinset_cons]
          rcases Finset.mem_insert.mp hx with h | h
          · exact Finset.mem_union_right _ (h ▸ Finset.mem_insert_self _ _)
          · exact Finset.mem_union_left _ h
        have hlt : st.clientCount < cfg.bufferSize := by
          have hcard := Finset.card_le_card hsub
          rw [Finset.card_insert_of_not_mem
            (fun hm => hnotin (List.mem_toFinset.mp hm)), hcc] at hcard
          omega
        have hocc1 : occupied (bufferAdd cfg.bufferSize st s.identity)
              ++ rest.map Sighting.identity
            = occupied st ++ s.identity :: rest.map Sighting.identity := by
          rw [occupied_bufferAdd_of_lt hlt, List.append_assoc, List.singleton_append]
        have hih := ih (bufferAdd cfg.bufferSize st s.identity)
          (cleanAbove_bufferAdd hlt hclean)
          (by rw [occupied_bufferAdd_of_lt hlt]
              simp [List.nodup_append, hnd, hnotin])
          (by rw [occupied_bufferAdd_of_lt hlt]
              intro hmem
              rcases List.mem_append.mp hmem with h | h
              · exact hnotmem h
              · exact hmne (List.mem_singleton.mp h).symm)
          (fun t ht => hne t (List.mem_cons_of_mem _ ht))
          (by rw [hocc1]; exact hcap)
        rw [hocc1] at hih
        rw [processSighting_fst hchk']
        simp only [List.filter_append, List.length_append,
          processSighting_filter_length hchk']
        rw [clientCount_bufferAdd_of_lt hlt] at hih
        omega

/-! ### Frame deliveries alone: no sweep summary, channel untouched -/

theorem showMetadata_no_sweepSummary (cfg : Config) (st : BufState) (f : Frame) :
    (showMetadata cfg st f).2.filter isSweepSummaryEvent = [] := by
  unfold showMetadata
  cases classify cfg.ignoreLocalMacs f with
  | none => rfl
  | some s =>
      unfold processSighting
      by_cases hchk : bufferCheckMAC st s.identity <;>
        by_cases hs : cfg.spiSendAddresses <;>
          simp [hchk, hs, isSweepSummaryEvent]

theorem clientCount_le_processSighting (cfg : Config) (st : BufState) (s : Sighting) :
    st.clientCount ≤ (processSighting cfg st s).1.clientCount := by
  unfold processSighting
  by_cases hchk : bufferCheckMAC st s.identity
  · simp [hchk]
  · simp only [hchk, Bool.false_eq_true, if_neg, ite_false]
    exact clientCount_le_bufferAdd _ _ _

theorem clientCount_le_showMetadata (cfg : Config) (st : BufState) (f : Frame) :
    st.clientCount ≤ (showMetadata cfg st f).1.clientCount := by
  unfold showMetadata
  cases classify cfg.ignoreLocalMacs f with
  | none => exact le_refl _
  | some s => exact clientCount_le_processSighting cfg st s

theorem sysRun_frames_only (cfg : Config) :
    ∀ (inputs : List Input) (st : SysState),
      (∀ inp ∈ inputs, isFrameInput inp = true) →
      (sysRun cfg st inputs).2.filter isSweepSummaryEvent = [] ∧
      (sysRun cfg st inputs).1.channel = st.channel ∧
      st.buf.clientCount ≤ (sysRun cfg st inputs).1.buf.clientCount := by
  intro inputs
  induction inputs with
  | nil => intro st _; exact ⟨rfl, rfl, le_refl _⟩
  | cons i is ih =>
      intro st h
      cases i with
      | tick =>
          have := h Input.tick (List.mem_cons_self _ _)
          simp [isFrameInput] at this
      | frame f =>
          have hrest := ih { buf := (showMetadata cfg st.buf f).1, channel := st.channel }
            (fun inp hinp => h inp (List.mem_cons_of_mem _ hinp))
          simp only [sysRun, sysStep]
          refine ⟨?_, ?_, ?_⟩
          · rw [List.filter_append, showMetadata_no_sweepSummary, hrest.1,
              List.append_nil]
          · exact hrest.2.1
          · exact le_trans (clientCount_le_showMetadata cfg st.buf f) hrest.2.2


def hexChars : List Char := "0123456789abcdef:".toList

theorem hexDigit_mem {n : Nat} (h : n < 16) : hexDigit n ∈ hexChars := by
  interval_cases n <;> decide

theorem byteToHex_length (b : Nat) : (byteToHex b).length = 2 := rfl

theorem byteToHex_chars (b : Nat) : ∀ c ∈ (byteToHex b).toList, c ∈ hexChars := by
  intro c hc
  have h2 : (byteToHex b).toList = [hexDigit (b / 16 % 16), hexDigit (b % 16)] := rfl
  rw [h2] at hc
  simp only [List.mem_cons, List.not_mem_nil, or_false] at hc
  rcases hc with hc | hc
  all_goals subst hc
  all_goals exact hexDigit_mem (Nat.mod_lt _ (by decide))

theorem getMAC_length (data : Nat → Nat) (offset : Nat) :
    (getMAC data offset).length = 17 := by
  simp [getMAC, String.length_append, byteToHex_length,
    show (":" : String).length = 1 from rfl]

theorem getMAC_chars (data : Nat → Nat) (offset : Nat) :
    ∀ c ∈ (getMAC data offset).toList, c ∈ hexChars := by
  intro c hc
  simp only [getMAC, String.toList, String.data_append, List.mem_append] at hc
  rcases hc with ((((((((((hc | hc) | hc) | hc) | hc) | hc) | hc) | hc) | hc) | hc) | hc)
  all_goals
    first
      | exact byteToHex_chars _ c hc
      | (have hc2 : c ∈ [(':' : Char)] := hc
         have hcc : c = ':' := List.mem_singleton.mp hc2
         subst hcc
         decide)

/-! ### Concrete fixtures -/

/-- A buffer holding exactly one identity, every other slot empty (as after a
fresh start). -/
def bugBuf : BufState :=
  { macs := fun i => if i = 0 then "aa:bb:cc:dd:ee:01" else "", clientCount := 1 }

/-- System state sitting on channel 14 with one buffered identity. -/
def bugSys : SysState := { buf := bugBuf, channel := 14 }

/-- Buffer of capacity 2 after inserting A then B. -/
def stAB : BufState := bufferAdd 2 (bufferAdd 2 initBuf "A") "B"

/-- Payload whose six address bytes (offsets 10-15) are 02 AA BB 01 02 03. -/
def exAddrData : Nat → Nat := fun i =>
  if i = 10 then 2 else if i = 11 then 170 else if i = 12 then 187 else
  if i = 13 then 1 else if i = 14 then 2 else if i = 15 then 3 else 0

/-- All-zero payload: frame type 0 (management) but subtype 0, not 4. -/
def fZero : Frame := { data := fun _ => 0, rssi := 0, channel := 1 }

/-- Probe-request frame (frame control 0x0040) whose first address byte 0x02
has the locally-administered bit set. -/
def fLocal : Frame :=
  { data := fun i => if i = 0 then 64 else if i = 10 then 2 else 0
    rssi := -30
    channel := 4 }

/-- Probe-request frame (frame control 0x0040), address bytes all zero. -/
def f0 : Frame := { data := fun i => if i = 0 then 64 else 0, rssi := -42, channel := 6 }

/-! ### The claims -/

/-- Claim C1: the claim says a tick at channel 14 wraps to 1, emits one
sweep-summary event with the pre-reset size, and resets the buffer to size 0.
The code wraps and emits the summary, but `bufferReset()` sits inside
`if(SPI_SEND_CLIENT_COUNT)` (main.cpp lines 177-182), which is false in the
repository configuration — so the buffer size after wraparound stays 1 here,
contradicting both the claim and the program's own header comment ("buffer is
resetted after every sweep").  With the SPI option enabled the reset does
happen. -/
theorem channelHop_wrap_skips_reset :
    (channelHop defaultConfig bugSys).1.channel = 1 ∧
    (channelHop defaultConfig bugSys).2 = [Event.sweepSummary 1] ∧
    (channelHop defaultConfig bugSys).1.buf.clientCount = 1 ∧
    (channelHop { defaultConfig with spiSendClientCount := true }
        bugSys).1.buf.clientCount = 0 :=
  ⟨rfl, by decide, rfl, rfl⟩

/-- Claim C2: refuted on the code — `bufferCheckMAC` scans indices
`0 .. clientCount` INCLUSIVE (`for (int i=0;i<=clientCount;i++)`), one slot
past the last occupied entry: on a buffer holding exactly one identity it
reports the empty string (sitting in the unoccupied slot 1) as present, and
in general the slot at index `clientCount` always participates in the scan
(out of bounds of the C array when the buffer is full). -/
theorem bufferCheckMAC_scans_one_past :
    bufferCheckMAC bugBuf "" = true ∧
    "" ∉ occupied bugBuf ∧
    (∀ st : BufState, bufferCheckMAC st (st.macs st.clientCount) = true) := by
  refine ⟨by decide, by decide, fun st => ?_⟩
  exact bufferCheckMAC_iff.mpr ⟨st.clientCount, le_refl _, rfl⟩

/-- Claim C3: inserting a novel identity into a buffer at capacity evicts
exactly the oldest entry (index 0), shifts the remaining entries down, and
appends the new identity at the end; below capacity it simply appends.  In
particular inserting A, B, C into a buffer of capacity 2 leaves contents
[B, C]. -/
theorem bufferAdd_fifo_eviction (cap : Nat) (st : BufState) (m : String)
    (hcap : 1 ≤ cap) :
    (st.clientCount = cap →
      occupied (bufferAdd cap st m) = (occupied st).tail ++ [m] ∧
      (bufferAdd cap st m).clientCount = cap) ∧
    (st.clientCount < cap →
      occupied (bufferAdd cap st m) = occupied st ++ [m]) ∧
    occupied (bufferAdd 2 stAB "C") = ["B", "C"] := by
  refine ⟨fun heq => ?_, fun hlt => occupied_bufferAdd_of_lt hlt, by decide⟩
  have hge : cap ≤ st.clientCount := le_of_eq heq.symm
  have h1 : 1 ≤ st.clientCount := hcap.trans hge
  exact ⟨occupied_bufferAdd_of_ge hge h1,
    (clientCount_bufferAdd_of_ge hge h1).trans heq⟩

/-- Witness for `bufferAdd_fifo_eviction`: capacity 2, buffer already holding
A and B, inserting C. -/
theorem bufferAdd_fifo_eviction_witness :
    occupied (bufferAdd 2 stAB "C") = (occupied stAB).tail ++ ["C"] ∧
    (bufferAdd 2 stAB "C").clientCount = 2 :=
  (bufferAdd_fifo_eviction 2 stAB "C" (by decide)).1 (by decide)

/-- Claim C5: `classify` decodes the 16-bit frame control little-endian from
payload bytes 0-1 and returns none unless the 2-bit type is management (0)
and the 4-bit subtype is probe-request (4), regardless of the filter
configuration or of any other byte. -/
theorem classify_filters_non_probe (il : Bool) (f : Frame)
    (h : frameType f ≠ TYPE_MANAGEMENT ∨ frameSubType f ≠ SUBTYPE_PROBE_REQUEST) :
    classify il f = none := by
  have hb : (frameType f != TYPE_MANAGEMENT
      || frameSubType f != SUBTYPE_PROBE_REQUEST) = true := by
    rcases h with h | h <;> simp [h]
  simp [classify, hb]

/-- Witness for `classify_filters_non_probe`: the all-zero frame has subtype
0, not probe-request. -/
theorem classify_filters_non_probe_witness :
    frameSubType fZero ≠ SUBTYPE_PROBE_REQUEST ∧ classify true fZero = none :=
  ⟨by decide, classify_filters_non_probe true fZero (Or.inr (by decide))⟩

/-- Claim C6: the hardware identity is the 6 bytes at payload offset 10
rendered as a colon-separated lowercase hexadecimal string of exactly 17
characters; address bytes 02 AA BB 01 02 03 canonicalize to exactly
"02:aa:bb:01:02:03". -/
theorem getMAC_canonical (data : Nat → Nat) :
    (getMAC data 10).length = 17 ∧
    (∀ c ∈ (getMAC data 10).toList, c ∈ hexChars) ∧
    getMAC exAddrData 10 = "02:aa:bb:01:02:03" :=
  ⟨getMAC_length data 10, getMAC_chars data 10, by decide⟩

/-- Claim C7: for a probe-request frame whose first address byte has the
second-least-significant bit set, `classify` returns none when the
locally-administered filter is enabled and the full sighting when it is
disabled; deduplication (`bufferCheckMAC`) consults only the canonical
string, never the locality classification. -/
theorem classify_local_filter (f : Frame)
    (ht : frameType f = TYPE_MANAGEMENT) (hs : frameSubType f = SUBTYPE_PROBE_REQUEST)
    (hl : isLocalMAC f.data = true) :
    classify true f = none ∧
    classify false f =
      some { identity := getMAC f.data 10, rssi := f.rssi, channel := f.channel } ∧
    (∀ (st : BufState) (d₁ d₂ : Nat → Nat), getMAC d₁ 10 = getMAC d₂ 10 →
      bufferCheckMAC st (getMAC d₁ 10) = bufferCheckMAC st (getMAC d₂ 10)) := by
  refine ⟨?_, ?_, fun st d₁ d₂ h => by rw [h]⟩ <;> simp [classify, ht, hs, hl]

/-- Witness for `classify_local_filter`: frame control 0x0040 with first
address byte 0x02. -/
theorem classify_local_filter_witness :
    frameType fLocal = TYPE_MANAGEMENT ∧ frameSubType fLocal = SUBTYPE_PROBE_REQUEST ∧
    isLocalMAC fLocal.data = true ∧ classify true fLocal = none :=
  ⟨by decide, by decide, by decide,
    (classify_local_filter fLocal (by decide) (by decide) (by decide)).1⟩

/-- Claim C4: over any sequence of classified sightings delivered to the
control loop within one sweep window (clean initial buffer, no reset, and too
few distinct identities to trigger eviction), the number of emitted sighting
events equals the number of distinct identities — not the number of frames —
and a sighting whose identity is already buffered produces no event and no
buffer change. -/
theorem sighting_events_count_distinct (cfg : Config) (l : List Sighting)
    (hne : ∀ s ∈ l, s.identity ≠ "")
    (hcap : (l.map Sighting.identity).toFinset.card ≤ cfg.bufferSize) :
    ((runSightings cfg initBuf l).2.filter isSightingEvent).length
      = (l.map Sighting.identity).toFinset.card ∧
    (∀ (st : BufState) (s : Sighting), bufferCheckMAC st s.identity = true →
      processSighting cfg st s = (st, [])) := by
  constructor
  · have h := runSightings_count cfg l initBuf cleanAbove_initBuf
      (by simp [occupied, initBuf]) (by simp [occupied, initBuf]) hne
      (by simpa [occupied, initBuf] using hcap)
    simpa [occupied, initBuf] using h
  · exact fun st s h => processSighting_of_checkMAC h

/-- Two distinct identities and a repeat of the first. -/
def sA : Sighting := { identity := "aa:aa:aa:aa:aa:01", rssi := -50, channel := 3 }

def sB : Sighting := { identity := "aa:aa:aa:aa:aa:02", rssi := -51, channel := 3 }

/-- Witness for `sighting_events_count_distinct`: frames A, B, A yield two
sighting events. -/
theorem sighting_events_count_distinct_witness :
    (∀ s ∈ [sA, sB, sA], s.identity ≠ "") ∧
    ([sA, sB, sA].map Sighting.identity).toFinset.card ≤ defaultConfig.bufferSize ∧
    ((runSightings defaultConfig initBuf [sA, sB, sA]).2.filter
        isSightingEvent).length
      = ([sA, sB, sA].map Sighting.identity).toFinset.card :=
  ⟨by decide, by decide,
    (sighting_events_count_distinct defaultConfig [sA, sB, sA]
      (by decide) (by decide)).1⟩

/-- Claim C8: in every state reachable by any sequence of frame deliveries
and timer ticks (covering insertions, evictions and sweep resets) from the
initial empty buffer, no duplicate identity coexists among the occupied
entries and the buffer size stays within 0..capacity (capacity at least 1,
as required at configuration time). -/
theorem reachable_no_duplicates (cfg : Config) (ch : Nat) (inputs : List Input)
    (hcap : 1 ≤ cfg.bufferSize) :
    (occupied (sysRun cfg { buf := initBuf, channel := ch } inputs).1.buf).Nodup ∧
    (sysRun cfg { buf := initBuf, channel := ch } inputs).1.buf.clientCount
      ≤ cfg.bufferSize :=
  bufInv_sysRun hcap inputs _ (bufInv_initBuf _)

/-- Witness for `reachable_no_duplicates`: one frame delivery followed by one
tick, default configuration. -/
theorem reachable_no_duplicates_witness :
    (occupied (sysRun defaultConfig { buf := initBuf, channel := 1 }
        [Input.frame f0, Input.tick]).1.buf).Nodup ∧
    (sysRun defaultConfig { buf := initBuf, channel := 1 }
        [Input.frame f0, Input.tick]).1.buf.clientCount ≤ defaultConfig.bufferSize :=
  reachable_no_duplicates defaultConfig 1 [Input.frame f0, Input.tick] (by decide)

/-- Claim C9: with static mode enabled `setup` arms no timer; and over any
input sequence consisting only of frame deliveries (no tick ever runs, since
the timer is not armed) no sweep-summary event is ever emitted, the channel
never moves from its initial value, and the buffer size never shrinks — it is
governed only by capacity-triggered eviction, never by sweep reset. -/
theorem static_mode_no_sweep :
    (setup true INITIAL_WIFI_CHANNEL).2 = false ∧
    ∀ (cfg : Config) (st : SysState) (inputs : List Input),
      (∀ inp ∈ inputs, isFrameInput inp = true) →
      (sysRun cfg st inputs).2.filter isSweepSummaryEvent = [] ∧
      (sysRun cfg st inputs).1.channel = st.channel ∧
      st.buf.clientCount ≤ (sysRun cfg st inputs).1.buf.clientCount :=
  ⟨rfl, fun cfg st inputs h => sysRun_frames_only cfg inputs st h⟩

/-- Witness for `static_mode_no_sweep`: a single frame delivery on the
initial state. -/
theorem static_mode_no_sweep_witness :
    (sysRun defaultConfig { buf := initBuf, channel := 1 }
        [Input.frame f0]).2.filter isSweepSummaryEvent = [] ∧
    (sysRun defaultConfig { buf := initBuf, channel := 1 }
        [Input.frame f0]).1.channel = 1 ∧
    initBuf.clientCount ≤ (sysRun defaultConfig { buf := initBuf, channel := 1 }
        [Input.frame f0]).1.buf.clientCount :=
  static_mode_no_sweep.2 defaultConfig { buf := initBuf, channel := 1 }
    [Input.frame f0] (by decide)

theorem processSighting_count {cfg : Config} {st : BufState} {s : Sighting}
    {mac : String} {r : Int} {ch n : Nat}
    (h : Event.sighting mac r ch n ∈ (processSighting cfg st s).2) :
    n = (processSighting cfg st s).1.clientCount := by
  unfold processSighting at h ⊢
  by_cases hchk : bufferCheckMAC st s.identity
  · rw [if_pos hchk] at h
    simp at h
  · rw [if_neg hchk] at h ⊢
    by_cases hs : cfg.spiSendAddresses
    · simp only [hs, if_true, List.mem_append, List.mem_singleton] at h
      rcases h with h | h
      · simp only [Event.sighting.injEq] at h
        exact h.2.2.2
      · simp at h
    · simp only [hs, Bool.false_eq_true, if_false, List.append_nil,
        List.mem_singleton] at h
      simp only [Event.sighting.injEq] at h
      exact h.2.2.2

/-- Claim C10: whenever `showMetadata` emits a sighting event, the count it
carries equals the buffer size after the new identity has been inserted —
the event is produced only after `bufferAdd` completes, so the count includes
the identity being reported. -/
theorem sighting_count_includes_new (cfg : Config) (st : BufState) (f : Frame)
    (mac : String) (r : Int) (ch n : Nat)
    (h : Event.sighting mac r ch n ∈ (showMetadata cfg st f).2) :
    n = (showMetadata cfg st f).1.clientCount := by
  unfold showMetadata at h ⊢
  revert h
  cases classify cfg.ignoreLocalMacs f with
  | none =>
      intro h
      simp at h
  | some s =>
      intro h
      exact processSighting_count h

/-- Witness for `sighting_count_includes_new`: the first probe request on an
empty buffer is reported with count 1. -/
theorem sighting_count_includes_new_witness :
    Event.sighting "00:00:00:00:00:00" (-42) 6 1
        ∈ (showMetadata defaultConfig initBuf f0).2 ∧
    (1 : Nat) = (showMetadata defaultConfig initBuf f0).1.clientCount :=
  ⟨by decide,
    sighting_count_includes_new defaultConfig initBuf f0 "00:00:00:00:00:00"
      (-42) 6 1 (by decide)⟩

end WifiSensor
